import Mathlib

/-!
Verification of the inference orchestration and resilience layer of
studybuddy-ai (package `internal/ai`, file containing `Engine`).

The Go code is shallowly embedded:
* strings are Lean `String`s, manipulated through their `data : List Char`
  (byte-level Go operations such as `strings.Index(line, ":")` are faithful
  at the rune level because the searched characters are ASCII and ASCII
  bytes never occur inside a UTF-8 multi-byte sequence);
* Go `int` is `Int` (with `strconv.Atoi`'s 64-bit range check made explicit);
* the HTTP call of `Engine.generate` is an oracle parameter: a transport
  failure (network error, non-2xx status, scanner error) is `Except.error`,
  a transport success delivers the accumulated stream text; the streamed
  body itself is modelled as a list of already-classified NDJSON lines
  (`StreamLine.malformed` for an empty or non-JSON line, `StreamLine.frag`
  for a decoded `OllamaResponse`);
* the `sync` mutexes guard state that is threaded explicitly here, and the
  `lastCheck` timestamp (wall clock) is omitted: no modelled behaviour
  reads it.
-/

namespace StudyBuddy

/-! ### Character and string utilities (Go `strings` package fragments) -/

/-- The whitespace set of Go's `unicode.IsSpace` as used by
`strings.TrimSpace`: the Unicode White_Space code points — `\t \n \v \f
\r space`, U+0085, U+00A0, U+1680, U+2000..U+200A, U+2028, U+2029,
U+202F, U+205F and U+3000. -/
def isSpaceGo (c : Char) : Bool :=
  c = ' ' || c = '\t' || c = '\n' || c = '\x0b' || c = '\x0c' || c = '\r' ||
  c = '\u0085' || c = '\u00a0' || c = '\u1680' ||
  (decide ('\u2000' ≤ c) && decide (c ≤ '\u200a')) ||
  c = '\u2028' || c = '\u2029' || c = '\u202f' || c = '\u205f' ||
  c = '\u3000'

/-- `strings.TrimSpace` on a character list. -/
def trimL (l : List Char) : List Char :=
  ((l.dropWhile isSpaceGo).reverse.dropWhile isSpaceGo).reverse

/-- `strings.TrimSpace`. -/
def trimString (s : String) : String :=
  ⟨trimL s.data⟩

/-- True when the list is empty or starts with a non-space character. -/
def headNotSpace (l : List Char) : Bool :=
  match l with
  | [] => true
  | c :: _ => !(isSpaceGo c)

def lineFeed : Char := '\n'

def colonChar : Char := ':'

def spaceChar : Char := ' '

/-- The backquote character, used by the markdown code-fence marker. -/
def backquote : Char := "`".data.headD ' '

/-- `strings.ReplaceAll(s, "```", "")`: removes non-overlapping code-fence
markers left to right. -/
def stripTicks : List Char → List Char
  | c :: d :: e :: rest =>
    if c = backquote ∧ d = backquote ∧ e = backquote then stripTicks rest
    else c :: stripTicks (d :: e :: rest)
  | c :: rest => c :: stripTicks rest
  | [] => []

/-- Substring occurrence on character lists (`strings.Contains` core). -/
def hasSub (pat : List Char) : List Char → Bool
  | [] => pat.isEmpty
  | c :: rest => pat.isPrefixOf (c :: rest) || hasSub pat rest

/-- `strings.Contains(s, sub)`. -/
def strContains (s sub : String) : Bool :=
  hasSub sub.data s.data

/-- `strings.Index(line, ":")` followed by the two slices
`line[:colonIndex]` and `line[colonIndex+1:]`; `none` when the line has no
colon. -/
def splitFirstColon (l : List Char) : Option (List Char × List Char) :=
  match l.dropWhile (fun c => c != colonChar) with
  | [] => none
  | _ :: after => some (l.takeWhile (fun c => c != colonChar), after)

/-! ### Data model (`internal/ai` structs) -/

/-- `ai.Problem`. -/
structure Problem where
  Title : String
  Description : String
  Options : List String
  CorrectAnswer : Int
  Explanation : String
  Difficulty : Int
  EstimatedTime : Int
  Encouragement : String
  ProblemType : String
deriving DecidableEq

/-- The zero `Problem`, used as the default of safe list indexing where the
Go code indexes with a bound already established. -/
def emptyProblem : Problem :=
  { Title := "", Description := "", Options := [], CorrectAnswer := 0,
    Explanation := "", Difficulty := 0, EstimatedTime := 0,
    Encouragement := "", ProblemType := "" }

/-- `ai.StudyContext`. `Progress float64` and the `PreviousErrors` /
`SessionHistory` slices (which hold wall-clock times and floats) are
omitted: no modelled operation reads them. -/
structure StudyContext where
  UserID : String
  Subject : String
  Grade : Int
  Difficulty : Int
  Emotion : String
  Strengths : List String
  Weaknesses : List String
deriving DecidableEq

/-- `ai.FeedbackRequest` (with the reduced `StudyContext` above). -/
structure FeedbackRequest where
  Problem : Problem
  UserAnswer : String
  IsCorrect : Bool
  TimeTaken : Int
  Emotion : String
  StudyContext : StudyContext
deriving DecidableEq

/-- `ai.FeedbackResponse`. -/
structure FeedbackResponse where
  Message : String
  Explanation : String
  Encouragement : String
  NextSteps : String
  TipOfDay : String
deriving DecidableEq

/-- One newline-delimited line of the streamed response body, already
classified: `malformed` is an empty line or one `json.Unmarshal` rejects
(both are skipped by the loop), `frag` is a decoded `OllamaResponse`. -/
inductive StreamLine where
  | malformed
  | frag (response : String) (done : Bool) (error : String)
deriving DecidableEq

/-- The mutable state of `ai.Engine`: health flag, consecutive failure
count, and the per-key offline rotation counters (`problemIndex`, a Go map
read with zero default — modelled as an association list). -/
structure EngineState where
  isOnline : Bool
  failureCount : Nat
  problemIndex : List (String × Nat)
deriving DecidableEq

/-- The distinct `fmt.Errorf` sites of `validateProblem` /
`validateIsoscelesTriangleProblem`. -/
inductive ValidationError where
  | missingTitle
  | missingDescription
  | insufficientOptions
  | invalidCorrectIndex
  | difficultyOutOfRange
  | forbiddenReference (phrase : String)
  | geometricInconsistency (stated : String)
deriving DecidableEq

/-- Errors surfaced by the parse/validation stage of a generation call. -/
inductive PError where
  | parseFailure (raw : String)
  | validation (e : ValidationError)
deriving DecidableEq

/-! ### Engine health state (`setOnline`, `recordFailure`, `recordSuccess`) -/

/-- `Engine.setOnline`. -/
def setOnline (e : EngineState) : EngineState :=
  { e with isOnline := true, failureCount := 0 }

/-- `Engine.recordFailure`. -/
def recordFailure (e : EngineState) : EngineState :=
  { e with isOnline := false, failureCount := e.failureCount + 1 }

/-- `Engine.recordSuccess`. -/
def recordSuccess (e : EngineState) : EngineState :=
  { e with isOnline := true, failureCount := 0 }

/-- `Engine.shouldTryAI`: always attempts the backend. -/
def shouldTryAI (_ : EngineState) : Bool :=
  true

/-- The state built by `NewEngine` (fields initialised, then `setOnline`). -/
def newEngine : EngineState :=
  setOnline { isOnline := true, failureCount := 0, problemIndex := [] }

/-- The NDJSON scanning loop of `Engine.generate`, with the accumulated
text as explicit state: a malformed line is skipped, a fragment with a
non-empty `error` field aborts, otherwise `response` is appended and a
`done` flag stops the loop; the final text is `strings.TrimSpace`d. -/
def processLines : List StreamLine → String → Except String String
  | [], acc => .ok (trimString acc)
  | .malformed :: rest, acc => processLines rest acc
  | .frag r d err :: rest, acc =>
    if err ≠ "" then .error ("ollama処理エラー: " ++ err)
    else
      if d then .ok (trimString (acc ++ r)) else processLines rest (acc ++ r)

/-- `Engine.generate` on a successfully delivered response body. -/
def generateFromBody (lines : List StreamLine) : Except String String :=
  processLines lines ""

/-- Modelled from the spec: the plain concatenation, in arrival order, of
the `response` fields of the fragments up to and including the first one
whose `done` flag is set, skipping malformed lines (the accumulation that
§4.3 of the spec describes, stated without the final trimming). -/
def specConcatUpToDone : List StreamLine → String
  | [] => ""
  | .malformed :: rest => specConcatUpToDone rest
  | .frag r d _ :: rest => if d then r else r ++ specConcatUpToDone rest

/-! ### Response parser (`parseKeyValueResponse`, `getField`, `parseInt`) -/

/-- Go map insertion on the association-list model of
`map[string]string`: overwrite an existing key, otherwise append. -/
def insertKV (m : List (String × String)) (k v : String) :
    List (String × String) :=
  match m with
  | [] => [(k, v)]
  | (k0, v0) :: rest =>
    if k0 = k then (k0, v) :: rest else (k0, v0) :: insertKV rest k v

/-- Go map lookup on the association-list model. -/
def lookupKV (m : List (String × String)) (k : String) : Option String :=
  match m with
  | [] => none
  | (k0, v0) :: rest => if k0 = k then some v0 else lookupKV rest k

/-- The line loop of `parseKeyValueResponse`: `ck`/`cv` are
`currentKey`/`currentValue`, `fields` the map built so far. -/
def parseLoop : List (List Char) → List Char → List Char →
    List (String × String) → List (String × String)
  | [], ck, cv, fields =>
    if ck ≠ [] then insertKV fields ⟨ck⟩ ⟨trimL cv⟩ else fields
  | line :: rest, ck, cv, fields =>
    let l := trimL line
    if l = [] then parseLoop rest ck cv fields
    else
      match splitFirstColon l with
      | some kv =>
        let fields2 := if ck ≠ [] then insertKV fields ⟨ck⟩ ⟨trimL cv⟩ else fields
        parseLoop rest (trimL kv.1) (trimL kv.2) fields2
      | none =>
        if ck ≠ [] then
          parseLoop rest ck (if cv.isEmpty then l else cv ++ lineFeed :: l) fields
        else parseLoop rest ck cv fields

/-- `ai.parseKeyValueResponse`: strip code fences, trim, split into lines,
run the key/value line loop. -/
def parseKeyValueResponse (response : String) : List (String × String) :=
  parseLoop ((trimL (stripTicks response.data)).splitOn lineFeed) [] [] []

/-- `ai.getField`. -/
def getField (fields : List (String × String)) (key dflt : String) : String :=
  match lookupKV fields key with
  | some v => if v = "" then dflt else v
  | none => dflt

/-- Digit-run evaluation for `strconv.Atoi`. -/
def digitsValAux : List Char → Nat → Option Nat
  | [], acc => some acc
  | c :: rest, acc =>
    if c.isDigit then digitsValAux rest (acc * 10 + (c.toNat - 48)) else none

/-- All-digit string value; `none` on an empty run or a non-digit. -/
def digitsVal (ds : List Char) : Option Nat :=
  match ds with
  | [] => none
  | _ => digitsValAux ds 0

/-- `strconv.Atoi`: optional sign, at least one digit, 64-bit range. -/
def atoi (s : String) : Option Int :=
  let signed : Option Int :=
    match s.data with
    | '+' :: ds => (digitsVal ds).map Int.ofNat
    | '-' :: ds => (digitsVal ds).map (fun n => -(Int.ofNat n))
    | ds => (digitsVal ds).map Int.ofNat
  match signed with
  | some n =>
    if n ≤ 9223372036854775807 ∧ -9223372036854775808 ≤ n then some n
    else none
  | none => none

/-- `ai.parseInt`: `strconv.Atoi` with `0` on error. -/
def parseInt (value : String) : Int :=
  match atoi value with
  | some n => n
  | none => 0

/-! ### Validator -/

/-- The quantitative-description heuristic of `validateProblem` (the
keyword scan at the top of its math branch). -/
def validatorIsMathProblem (d : String) : Bool :=
  strContains d "角" || strContains d "三角形" || strContains d "度" ||
  strContains d "計算" || strContains d "方程式" || strContains d "√" ||
  strContains d "²" || strContains d "="

/-- The quantitative-description heuristic of `buildFeedbackPrompt`
(its `isMathProblem` keyword scan). -/
def feedbackIsMathProblem (d : String) : Bool :=
  strContains d "角" || strContains d "三角形" || strContains d "度" ||
  strContains d "計算" || strContains d "方程式" || strContains d "面積" ||
  strContains d "体積" || strContains d "√" || strContains d "²" ||
  strContains d "平方" || strContains d "="

/-- The fixed blocklist of references to material external to the problem
text, in the order the Go loop scans it. -/
def forbiddenPhrases : List String :=
  ["次の文中から", "下の図", "以下の文", "次の文字は", "次の単語は",
   "次の数式は", "次の図", "次の表は", "次の資料"]

/-- `ai.validateIsoscelesTriangleProblem`: `some wrong` is the
`fmt.Errorf` case carrying the stated (incorrect) answer. -/
def validateIsoscelesTriangleProblem (p : Problem) : Option String :=
  if strContains p.Description "45度" && strContains p.Description "角B" then
    let correct := p.Options.getD p.CorrectAnswer.toNat ""
    if !(strContains correct "90") then some correct else none
  else none

/-- `ai.validateProblem`; `.ok` carries the problem with the soft
`EstimatedTime` default applied. -/
def validateProblem (p : Problem) : Except ValidationError Problem :=
  if p.Title = "" then .error .missingTitle
  else if p.Description = "" then .error .missingDescription
  else if p.Options.length < 2 then .error .insufficientOptions
  else if p.CorrectAnswer < 0 ∨ (p.Options.length : Int) ≤ p.CorrectAnswer then
    .error .invalidCorrectIndex
  else if p.Difficulty < 1 ∨ 5 < p.Difficulty then .error .difficultyOutOfRange
  else
    let q := if p.EstimatedTime ≤ 0 then { p with EstimatedTime := 300 } else p
    if validatorIsMathProblem q.Description then
      match forbiddenPhrases.find? (fun ph => strContains q.Description ph) with
      | some ph => .error (.forbiddenReference ph)
      | none =>
        if strContains q.Description "二等辺三角形" && strContains q.Description "角" then
          match validateIsoscelesTriangleProblem q with
          | some stated => .error (.geometricInconsistency stated)
          | none => .ok q
        else .ok q
    else .ok q

/-! ### Response-to-record parsers -/

/-- `Engine.parseProblemResponse`. -/
def parseProblemResponse (response : String) : Except PError Problem :=
  let fields := parseKeyValueResponse response
  if fields = [] then .error (.parseFailure response)
  else
    let problem : Problem :=
      { Title := getField fields "TITLE" ""
        Description := getField fields "DESCRIPTION" ""
        Options := [getField fields "OPTION1" "", getField fields "OPTION2" "",
                    getField fields "OPTION3" "", getField fields "OPTION4" ""]
        CorrectAnswer := parseInt (getField fields "CORRECT" "1") - 1
        Explanation := getField fields "EXPLANATION" ""
        Difficulty := parseInt (getField fields "DIFFICULTY" "3")
        EstimatedTime := parseInt (getField fields "TIME" "300")
        Encouragement := getField fields "ENCOURAGEMENT" ""
        ProblemType := getField fields "TYPE" "" }
    match validateProblem problem with
    | .error e => .error (.validation e)
    | .ok q => .ok q

/-- `Engine.parseFeedbackResponse`. -/
def parseFeedbackResponse (response : String) : Except PError FeedbackResponse :=
  let fields := parseKeyValueResponse response
  if fields = [] then .error (.parseFailure response)
  else
    .ok { Message := getField fields "MESSAGE" ""
          Explanation := getField fields "EXPLANATION" ""
          Encouragement := getField fields "ENCOURAGEMENT" ""
          NextSteps := getField fields "NEXT_STEPS" ""
          TipOfDay := getField fields "TIP" "" }

/-! ### Prompt builder fragment used by a claim (`buildFeedbackPrompt`) -/

/-- `Engine.buildFeedbackPrompt`: the base block, then the quantitative
template (with the mandatory CALCULATION field) when the `isMathProblem`
keyword scan fires, else the short template. The `fmt.Sprintf` layout is
reproduced verbatim. -/
def buildFeedbackPrompt (req : FeedbackRequest) : String :=
  let resultText := if req.IsCorrect then "正解" else "不正解"
  let basePrompt :=
    "結果: " ++ resultText ++ "\n問題: " ++ req.Problem.Description ++
    "\n回答: " ++ req.UserAnswer ++ "\n正解: " ++
    req.Problem.Options.getD req.Problem.CorrectAnswer.toNat ""
  if feedbackIsMathProblem req.Problem.Description then
    basePrompt ++
    "\n\n【重要】数学問題のため、必ず計算過程を含めること。\n\nフィードバックを以下形式で:\n\nMESSAGE: メッセージ\nCALCULATION: 段階的計算過程（必須）\nEXPLANATION: 数学的根拠と解説\nENCOURAGEMENT: 励まし\nNEXT_STEPS: 次のステップ\nTIP: 数学のコツ\n\n例）二等辺三角形で角A=角C=60度の場合:\nCALCULATION: 角A + 角B + 角C = 180度, 60度 + 角B + 60度 = 180度, 角B = 180度 - 120度 = 60度\n\n上記形式のみで回答。"
  else
    basePrompt ++
    "\n\nフィードバックを以下形式で:\n\nMESSAGE: メッセージ\nEXPLANATION: 解説\nENCOURAGEMENT: 励まし\nNEXT_STEPS: 次のステップ\nTIP: コツ\n\n上記形式のみで回答。"

/-! ### Offline content bank -/

/-- The grade-1 entries of the `mathProblems` table in `getMathProblem`. -/
def mathProblemsG1 : List Problem :=
  [{ Title := "正負の数の計算"
     Description := "次の計算をしてください。\n(-3) + (+5) = ?"
     Options := ["+2", "-2", "+8", "-8"]
     CorrectAnswer := 0
     Explanation := "(-3) + (+5) = 5 - 3 = +2 です。正の数から負の数を引くときは、符号に注意しましょう。"
     Difficulty := 2
     EstimatedTime := 180
     Encouragement := "正負の数の計算は慣れれば簡単です！"
     ProblemType := "計算" },
   { Title := "文字と式"
     Description := "x = 3 のとき、2x + 1 の値を求めてください。"
     Options := ["5", "6", "7", "8"]
     CorrectAnswer := 2
     Explanation := "x = 3 を代入すると、2×3 + 1 = 6 + 1 = 7 です。"
     Difficulty := 3
     EstimatedTime := 200
     Encouragement := "代入の計算は順序を守れば確実に解けます！"
     ProblemType := "文字式" },
   { Title := "平方根の計算"
     Description := "✓ 9 の値はいくつでしょうか？"
     Options := ["3", "4", "6", "9"]
     CorrectAnswer := 0
     Explanation := "✓ 9 = 3 です。なぜなら3 × 3 = 9 だからです。"
     Difficulty := 2
     EstimatedTime := 160
     Encouragement := "平方根は九九を覚えるとよいでしょう！"
     ProblemType := "平方根" }]

/-- The grade-2 entries of the `mathProblems` table. -/
def mathProblemsG2 : List Problem :=
  [{ Title := "連立方程式"
     Description := "次の連立方程式を解いてください。\nx + y = 5\nx - y = 1\nxの値は？"
     Options := ["1", "2", "3", "4"]
     CorrectAnswer := 2
     Explanation := "2つの式を足すと 2x = 6 なので x = 3 です。"
     Difficulty := 3
     EstimatedTime := 300
     Encouragement := "連立方程式は代入法や加減法をマスターすれば簡単です！"
     ProblemType := "方程式" },
   { Title := "一次関数"
     Description := "y = 2x + 1 において、x = 2 のときの y の値は？"
     Options := ["3", "4", "5", "6"]
     CorrectAnswer := 2
     Explanation := "y = 2 × 2 + 1 = 4 + 1 = 5 です。"
     Difficulty := 3
     EstimatedTime := 200
     Encouragement := "一次関数の代入は基本です！"
     ProblemType := "関数" }]

/-- The grade-3 entries of the `mathProblems` table. -/
def mathProblemsG3 : List Problem :=
  [{ Title := "二次方程式"
     Description := "二次方程式 x² - 5x + 6 = 0 を解いてください。\n解のうち小さい方は？"
     Options := ["1", "2", "3", "6"]
     CorrectAnswer := 1
     Explanation := "因数分解すると (x-2)(x-3) = 0 なので、x = 2, 3 です。小さい方は 2 です。"
     Difficulty := 4
     EstimatedTime := 400
     Encouragement := "二次方程式は因数分解の基本をマスターすれば解けます！"
     ProblemType := "二次方程式" },
   { Title := "平方根の应用"
     Description := "√50 を簡単な形に表すと？"
     Options := ["5√2", "2√5", "25", "50"]
     CorrectAnswer := 0
     Explanation := "√50 = √(25 × 2) = 5√2 です。"
     Difficulty := 4
     EstimatedTime := 350
     Encouragement := "平方根の簡単化は因数分解が鍵です！"
     ProblemType := "平方根" },
   { Title := "二等辺三角形の角度"
     Description := "二等辺三角形ABCで、角A = 角C = 45度のとき、角Bの大きさは何度ですか？"
     Options := ["45度", "60度", "90度", "120度"]
     CorrectAnswer := 2
     Explanation := "三角形の内角の和は180度です。角A + 角B + 角C = 180度なので、45度 + 角B + 45度 = 180度、よって角B = 180度 - 90度 = 90度です。"
     Difficulty := 3
     EstimatedTime := 250
     Encouragement := "二等辺三角形の性質と三角形の内角の和を理解すれば解けます！"
     ProblemType := "図形" }]

/-- The fallback problem of `getMathProblem` for a grade outside the table. -/
def mathDefaultProblem : Problem :=
  { Title := "基本計算"
    Description := "7 + 8 = ?"
    Options := ["14", "15", "16", "17"]
    CorrectAnswer := 1
    Explanation := "7 + 8 = 15 です。"
    Difficulty := 1
    EstimatedTime := 120
    Encouragement := "計算の基本から始めましょう！"
    ProblemType := "基本計算" }

/-- The `englishProblems` list of `getEnglishProblem`. -/
def englishProblems : List Problem :=
  [{ Title := "基本英単語"
     Description := "次の英単語の意味として正しいものを選んでください。\n「book」の意味は？"
     Options := ["本", "ペン", "机", "椅子"]
     CorrectAnswer := 0
     Explanation := "「book」は「本」という意味です。基本的な英単語ですね。"
     Difficulty := 2
     EstimatedTime := 150
     Encouragement := "英単語を覚えることで英語の理解が深まります！"
     ProblemType := "語彙" },
   { Title := "動詞の意味"
     Description := "「play」の意味として正しいものは？"
     Options := ["遊ぶ", "食べる", "歩く", "寝る"]
     CorrectAnswer := 0
     Explanation := "「play」は「遊ぶ」という意味です。"
     Difficulty := 2
     EstimatedTime := 140
     Encouragement := "動詞を理解することが英語上達の鍵です！"
     ProblemType := "動詞" },
   { Title := "形容詞の利用"
     Description := "「big」の反対の意味の単語は？"
     Options := ["small", "fast", "good", "new"]
     CorrectAnswer := 0
     Explanation := "「big」の反対は「small」です。"
     Difficulty := 2
     EstimatedTime := 130
     Encouragement := "反対語を覚えると語彙が増えます！"
     ProblemType := "形容詞" }]

/-- `getJapaneseProblem`'s fixed problem. -/
def japaneseProblem : Problem :=
  { Title := "漢字の読み"
    Description := "次の漢字の読み方として正しいものを選んでください。\n「学習」の読み方は？"
    Options := ["がくしゅう", "がくしゅ", "がくしゆう", "がくし"]
    CorrectAnswer := 0
    Explanation := "「学習」は「がくしゅう」と読みます。日々の学習で身につけましょう。"
    Difficulty := 2
    EstimatedTime := 150
    Encouragement := "漢字の読み方は練習すれば必ず覚えられます！"
    ProblemType := "漢字" }

/-- `getScienceProblem`'s fixed problem. -/
def scienceProblem : Problem :=
  { Title := "植物の基本"
    Description := "植物が光合成を行うために必要なものとして正しくないものはどれですか？"
    Options := ["二酸化炭素", "水", "光", "酸素"]
    CorrectAnswer := 3
    Explanation := "光合成には二酸化炭素、水、光が必要です。酸素は光合成の産物です。"
    Difficulty := 3
    EstimatedTime := 200
    Encouragement := "生物の仕組みを理解することで自然への理解が深まります！"
    ProblemType := "生物" }

/-- `getSocialStudiesProblem`'s fixed problem. -/
def socialStudiesProblem : Problem :=
  { Title := "日本の地理"
    Description := "日本の首都はどこですか？"
    Options := ["大阪", "京都", "東京", "名古屋"]
    CorrectAnswer := 2
    Explanation := "日本の首都は東京です。政治や経済の中心地です。"
    Difficulty := 1
    EstimatedTime := 120
    Encouragement := "地理の知識は世界を理解する第一歩です！"
    ProblemType := "地理" }

/-- `getGeneralProblem`'s fixed problem. -/
def generalProblem : Problem :=
  { Title := "一般常識"
    Description := "1年は何日でしょうか？（平年の場合）"
    Options := ["364日", "365日", "366日", "367日"]
    CorrectAnswer := 1
    Explanation := "平年は365日です。うるう年は366日になります。"
    Difficulty := 1
    EstimatedTime := 120
    Encouragement := "基本的な知識から学習を始めましょう！"
    ProblemType := "一般常識" }

/-- `problemIndex` read: a Go map read defaults to `0` for an absent key. -/
def idxGet (m : List (String × Nat)) (key : String) : Nat :=
  match m with
  | [] => 0
  | (k, v) :: rest => if k = key then v else idxGet rest key

/-- `problemIndex` write. -/
def idxSet (m : List (String × Nat)) (key : String) (v : Nat) :
    List (String × Nat) :=
  match m with
  | [] => [(key, v)]
  | (k, w) :: rest =>
    if k = key then (k, v) :: rest else (k, w) :: idxSet rest key v

/-- The mutex-guarded rotation step shared by `getMathProblem` and
`getEnglishProblem`: reduce the stored counter modulo the list length,
return that entry, store the reduced index plus one. -/
def rotationSelect (problems : List Problem) (counter : Nat) : Problem × Nat :=
  (problems.getD (counter % problems.length) emptyProblem,
   counter % problems.length + 1)

/-- The counter value seen by the `k`-th consecutive rotation for one key,
starting from the Go map zero value. -/
def rotationRun (problems : List Problem) : Nat → Nat
  | 0 => 0
  | k + 1 => (rotationSelect problems (rotationRun problems k)).2

/-- The entry returned by the `k`-th consecutive rotation for one key. -/
def rotationNth (problems : List Problem) (k : Nat) : Problem :=
  (rotationSelect problems (rotationRun problems k)).1

/-- The `mathProblems` table lookup of `getMathProblem` (the Go
`exists && len(problems) > 0` guard always passes for grades 1-3 since the
three lists are non-empty). -/
def mathProblemsFor (grade : Int) : Option (List Problem) :=
  if grade = 1 then some mathProblemsG1
  else if grade = 2 then some mathProblemsG2
  else if grade = 3 then some mathProblemsG3
  else none

/-- `Engine.getMathProblem` (the ignored difficulty argument is dropped). -/
def getMathProblem (e : EngineState) (grade : Int) : Problem × EngineState :=
  let key := "数学_G" ++ toString grade
  match mathProblemsFor grade with
  | some problems =>
    let r := rotationSelect problems (idxGet e.problemIndex key)
    (r.1, { e with problemIndex := idxSet e.problemIndex key r.2 })
  | none => (mathDefaultProblem, e)

/-- `Engine.getEnglishProblem`. -/
def getEnglishProblem (e : EngineState) (grade : Int) : Problem × EngineState :=
  let key := "英語_G" ++ toString grade
  let r := rotationSelect englishProblems (idxGet e.problemIndex key)
  (r.1, { e with problemIndex := idxSet e.problemIndex key r.2 })

/-- `Engine.generateOfflineProblem`. -/
def generateOfflineProblem (e : EngineState) (ctx : StudyContext) :
    Problem × EngineState :=
  if ctx.Subject = "数学" ∨ ctx.Subject = "算数" then getMathProblem e ctx.Grade
  else if ctx.Subject = "英語" then getEnglishProblem e ctx.Grade
  else if ctx.Subject = "国語" then (japaneseProblem, e)
  else if ctx.Subject = "理科" then (scienceProblem, e)
  else if ctx.Subject = "社会" then (socialStudiesProblem, e)
  else (generalProblem, e)

/-- `Engine.generateOfflineFeedback`. -/
def generateOfflineFeedback (req : FeedbackRequest) : FeedbackResponse :=
  if req.IsCorrect then
    { Message := "🎉 正解です！よく頑張りました！"
      Explanation := "素晴らしい理解力です。この調子で学習を続けていきましょう。"
      Encouragement := "あなたの努力が実っています。この調子で頑張りましょう！"
      NextSteps := "次はもう少し難しい問題にチャレンジしてみましょう。"
      TipOfDay := "理解したことを自分の言葉で説明してみると、さらに記憶に定着しやすくなります。" }
  else
    { Message := "📚 おしい！間違いも学習の大切な一歩です。"
      Explanation := "今回は間違えましたが、これも貴重な学習経験です。正解を確認して理解を深めましょう。"
      Encouragement := "失敗は成功の母です。諦めずに続けていけば必ず理解できます！"
      NextSteps := "同じ問題を時間を置いてもう一度挑戦してみましょう。"
      TipOfDay := "間違えた問題は記録しておき、後で復習すると理解が深まります。" }

/-! ### Coordinator (`GeneratePersonalizedProblem`, `GenerateFeedback`) -/

/-- `Engine.GeneratePersonalizedProblem`, with the outcome of the
`Engine.generate` backend call supplied as the oracle argument. -/
def GeneratePersonalizedProblem (e : EngineState) (ctx : StudyContext)
    (backend : Except String String) : Except PError Problem × EngineState :=
  if shouldTryAI e then
    match backend with
    | .error _ =>
      let e1 := recordFailure e
      let r := generateOfflineProblem e1 ctx
      (.ok r.1, r.2)
    | .ok response => (parseProblemResponse response, recordSuccess e)
  else
    let r := generateOfflineProblem e ctx
    (.ok r.1, r.2)

/-- `Engine.GenerateFeedback`, with the backend outcome as oracle. -/
def GenerateFeedback (e : EngineState) (req : FeedbackRequest)
    (backend : Except String String) :
    Except PError FeedbackResponse × EngineState :=
  if shouldTryAI e then
    match backend with
    | .error _ => (.ok (generateOfflineFeedback req), recordFailure e)
    | .ok response => (parseFeedbackResponse response, recordSuccess e)
  else (.ok (generateOfflineFeedback req), e)

/-! ### The `KEY: value` rendering of a record (spec §8 round-trip) -/

/-- Modelled from the spec: the textual layout a record is rendered into —
one `KEY: value` line per field, with the value's further lines following
as continuation lines. The lines are listed here; `renderRecord` joins
them with newlines. -/
def renderLines (fs : List (String × String)) : List (List Char) :=
  fs.flatMap fun kv =>
    match kv.2.data.splitOn lineFeed with
    | [] => [kv.1.data ++ [colonChar, spaceChar]]
    | v1 :: vt => (kv.1.data ++ colonChar :: spaceChar :: v1) :: vt

/-- Modelled from the spec: the rendered `KEY: value` text block. -/
def renderRecord (fs : List (String × String)) : String :=
  ⟨[lineFeed].intercalate (renderLines fs)⟩

/-- A key the `KEY: value` layout can carry: non-empty, no surrounding
whitespace, and free of colons, newlines and code-fence backquotes. -/
def goodKey (k : List Char) : Prop :=
  k ≠ [] ∧ headNotSpace k = true ∧ headNotSpace k.reverse = true ∧
  colonChar ∉ k ∧ lineFeed ∉ k ∧ backquote ∉ k

/-- One line of a value the layout can carry: non-empty, no surrounding
whitespace, no code-fence backquote. -/
def goodVLine (l : List Char) : Prop :=
  l ≠ [] ∧ headNotSpace l = true ∧ headNotSpace l.reverse = true ∧
  backquote ∉ l

/-- A value the layout can carry: each of its lines is a good line and the
continuation lines (all but the first) contain no colon. -/
def goodValue (v : List Char) : Prop :=
  (∀ l ∈ v.splitOn lineFeed, goodVLine l) ∧
  ∀ l ∈ (v.splitOn lineFeed).tail, colonChar ∉ l

/-- A record the `KEY: value` layout can carry faithfully: distinct keys,
each key and value well-formed for the layout. -/
def recordWF (fs : List (String × String)) : Prop :=
  (fs.map Prod.fst).Nodup ∧
  ∀ kv ∈ fs, goodKey kv.1.data ∧ goodValue kv.2.data

instance (k : List Char) : Decidable (goodKey k) := by
  unfold goodKey
  infer_instance

instance (l : List Char) : Decidable (goodVLine l) := by
  unfold goodVLine
  infer_instance

instance (v : List Char) : Decidable (goodValue v) := by
  unfold goodValue
  infer_instance

instance (fs : List (String × String)) : Decidable (recordWF fs) := by
  unfold recordWF
  infer_instance

/-! ### Concrete fixtures used by witnesses and counterexamples -/

/-- A grade-3 mathematics study context (backend-unreachable scenario). -/
def mathCtx3 : StudyContext :=
  { UserID := "u1", Subject := "数学", Grade := 3, Difficulty := 3,
    Emotion := "普通", Strengths := [], Weaknesses := [] }

/-- The isosceles-triangle archetype problem with the wrong (60-degree)
option marked correct. -/
def isoProblem60 : Problem :=
  { Title := "二等辺三角形の角度"
    Description := "二等辺三角形ABCで、角A = 角C = 45度のとき、角Bの大きさは何度ですか？"
    Options := ["45度", "60度", "90度", "120度"]
    CorrectAnswer := 1
    Explanation := "三角形の内角の和から求めます。"
    Difficulty := 3
    EstimatedTime := 250
    Encouragement := "落ち着いて計算しましょう！"
    ProblemType := "図形" }

/-- The same archetype problem with the correct (90-degree) option. -/
def isoProblem90 : Problem :=
  { isoProblem60 with CorrectAnswer := 2 }

/-- A quantitative description that carries the blocklisted phrase
`下の図` (it mentions a triangle, so the math heuristic fires). -/
def forbiddenMathProblem : Problem :=
  { isoProblem60 with
    Description := "下の図の三角形について答えなさい。"
    Options := ["ア", "イ", "ウ", "エ"]
    CorrectAnswer := 0 }

/-- A non-quantitative description carrying the same blocklisted phrase. -/
def forbiddenPlainProblem : Problem :=
  { forbiddenMathProblem with
    Description := "下の図を見て、正しいものを選びなさい。" }

/-- A three-line-value record for the round-trip witness. -/
def roundTripRecord : List (String × String) :=
  [("TITLE", "例題"), ("EXPLANATION", "一行目\n二行目\n三行目"),
   ("TYPE", "計算")]

/-- The record whose second value line is itself a `KEY: value` line; it
breaks the unrestricted round-trip claim. -/
def collidingRecord : List (String × String) :=
  [("A", "x\nB: y")]

/-- The structural invariant claimed for every returned problem. -/
def ProblemInvariant (p : Problem) : Prop :=
  0 ≤ p.CorrectAnswer ∧ p.CorrectAnswer < (p.Options.length : Int) ∧
  2 ≤ p.Options.length ∧ 1 ≤ p.Difficulty ∧ p.Difficulty ≤ 5 ∧
  0 < p.EstimatedTime

instance (p : Problem) : Decidable (ProblemInvariant p) := by
  unfold ProblemInvariant
  infer_instance

/-- A stream line that neither completes nor fails the loop: malformed
(skipped), or a fragment with `done = false` and an empty `error`. -/
def cleanFrag (l : StreamLine) : Bool :=
  match l with
  | .malformed => true
  | .frag _ d err => !d && decide (err = "")

/-- A stream line whose `error` field is empty. -/
def errFree (l : StreamLine) : Bool :=
  match l with
  | .malformed => true
  | .frag _ _ err => decide (err = "")

/-- Decidable equality of `Except` results, for concrete evaluation. -/
instance {ε α : Type} [DecidableEq ε] [DecidableEq α] :
    DecidableEq (Except ε α) := fun a b =>
  match a, b with
  | .ok x, .ok y =>
    if h : x = y then .isTrue (by rw [h]) else .isFalse (by simp [h])
  | .error x, .error y =>
    if h : x = y then .isTrue (by rw [h]) else .isFalse (by simp [h])
  | .ok _, .error _ => .isFalse (by simp)
  | .error _, .ok _ => .isFalse (by simp)

/-! ### Helper lemmas: engine state bookkeeping -/

theorem getMathProblem_state (e : EngineState) (g : Int) :
    (getMathProblem e g).2.isOnline = e.isOnline ∧
    (getMathProblem e g).2.failureCount = e.failureCount := by
  unfold getMathProblem
  cases mathProblemsFor g <;> simp

theorem getEnglishProblem_state (e : EngineState) (g : Int) :
    (getEnglishProblem e g).2.isOnline = e.isOnline ∧
    (getEnglishProblem e g).2.failureCount = e.failureCount := by
  simp [getEnglishProblem]

theorem generateOfflineProblem_state (e : EngineState) (ctx : StudyContext) :
    (generateOfflineProblem e ctx).2.isOnline = e.isOnline ∧
    (generateOfflineProblem e ctx).2.failureCount = e.failureCount := by
  unfold generateOfflineProblem
  split_ifs
  · exact getMathProblem_state e ctx.Grade
  · exact getEnglishProblem_state e ctx.Grade
  · exact ⟨rfl, rfl⟩
  · exact ⟨rfl, rfl⟩
  · exact ⟨rfl, rfl⟩
  · exact ⟨rfl, rfl⟩

/-- Claim C1: on a backend error (transport or protocol failure) both
generation entry points record a failure and return the offline-bank
result with no error; on a backend success whose parse/validation fails,
the error is propagated to the caller, the state records a success, and no
offline fallback happens. -/
theorem C1_failure_asymmetry :
    (∀ e ctx msg, ∃ p e2,
        GeneratePersonalizedProblem e ctx (Except.error msg) =
          (Except.ok p, e2) ∧
        p = (generateOfflineProblem (recordFailure e) ctx).1 ∧
        e2.isOnline = false ∧ e2.failureCount = e.failureCount + 1) ∧
    (∀ e ctx resp err, parseProblemResponse resp = Except.error err →
        GeneratePersonalizedProblem e ctx (Except.ok resp) =
          (Except.error err, recordSuccess e)) ∧
    (∀ e req msg,
        GenerateFeedback e req (Except.error msg) =
          (Except.ok (generateOfflineFeedback req), recordFailure e)) ∧
    (∀ e req resp err, parseFeedbackResponse resp = Except.error err →
        GenerateFeedback e req (Except.ok resp) =
          (Except.error err, recordSuccess e)) := by
  refine ⟨?_, ?_, ?_, ?_⟩
  · intro e ctx msg
    refine ⟨(generateOfflineProblem (recordFailure e) ctx).1,
            (generateOfflineProblem (recordFailure e) ctx).2, rfl, rfl, ?_, ?_⟩
    · rw [(generateOfflineProblem_state _ _).1]; rfl
    · rw [(generateOfflineProblem_state _ _).2]; rfl
  · intro e ctx resp err h
    simp [GeneratePersonalizedProblem, shouldTryAI, h]
  · intro e req msg
    rfl
  · intro e req resp err h
    simp [GenerateFeedback, shouldTryAI, h]

theorem C1_failure_asymmetry_witness :
    GeneratePersonalizedProblem newEngine mathCtx3 (Except.ok "") =
      (Except.error (PError.parseFailure ""), recordSuccess newEngine) ∧
    GenerateFeedback newEngine
      { Problem := generalProblem, UserAnswer := "365日", IsCorrect := true,
        TimeTaken := 30, Emotion := "普通", StudyContext := mathCtx3 }
      (Except.ok "") =
      (Except.error (PError.parseFailure ""), recordSuccess newEngine) :=
  ⟨C1_failure_asymmetry.2.1 newEngine mathCtx3 "" (PError.parseFailure "")
     (by decide),
   C1_failure_asymmetry.2.2.2 newEngine _ "" (PError.parseFailure "")
     (by decide)⟩

/-! ### Claim C3: the two quantitative heuristics -/

/-- Claim C3 counterexample: the two keyword heuristics disagree — the
description `面積` is quantitative for `buildFeedbackPrompt`'s scan but
not for `validateProblem`'s scan (which lacks the keywords 面積, 体積 and
平方), so the claimed equivalence is false. -/
theorem C3_heuristics_differ :
    validatorIsMathProblem "面積" = false ∧
    feedbackIsMathProblem "面積" = true := by
  decide

/-- Claim C3 (amended): `validateProblem`'s keyword set is a strict subset
of `buildFeedbackPrompt`'s, so every description the validator judges
quantitative is also judged quantitative by the feedback prompt builder —
but not conversely. -/
theorem C3_validator_implies_feedback (d : String)
    (h : validatorIsMathProblem d = true) : feedbackIsMathProblem d = true := by
  unfold validatorIsMathProblem at h
  unfold feedbackIsMathProblem
  simp only [Bool.or_eq_true] at h ⊢
  tauto

theorem C3_validator_implies_feedback_witness :
    feedbackIsMathProblem "この方程式を解きなさい" = true :=
  C3_validator_implies_feedback "この方程式を解きなさい" (by decide)

/-! ### Claims C5 and C6: the streaming loop -/

/-- Claim C5 counterexample: a fragment carrying a non-empty error field
does not make the call fail when an earlier fragment already carried the
completion flag — the loop has stopped, and the accumulated text is
returned with no error. -/
theorem C5_error_after_done_ignored :
    generateFromBody
        [StreamLine.frag "A" true "", StreamLine.frag "" false "boom"] =
      Except.ok "A" := by
  decide

/-- Claim C5 (amended): a fragment with a non-empty error field that is
reached before any completion-flagged fragment makes the call fail with
that message, and all previously accumulated text is discarded (the
result carries no text, whatever the accumulator held). -/
theorem C5_error_before_done_aborts (r : String) (d : Bool) (msg : String)
    (post : List StreamLine) (hmsg : msg ≠ "") :
    ∀ (pre : List StreamLine) (acc : String),
      (∀ l ∈ pre, cleanFrag l = true) →
      processLines (pre ++ StreamLine.frag r d msg :: post) acc =
        Except.error ("ollama処理エラー: " ++ msg) := by
  intro pre
  induction pre with
  | nil => intro acc _; simp [processLines, hmsg]
  | cons l rest ih =>
    intro acc hcl
    have hl := hcl l (List.mem_cons_self _ _)
    have hrest := fun x hx => hcl x (List.mem_cons_of_mem _ hx)
    cases l with
    | malformed => simpa [processLines] using ih acc hrest
    | frag fr fd fe =>
      simp only [cleanFrag, Bool.and_eq_true, Bool.not_eq_true',
        decide_eq_true_eq] at hl
      obtain ⟨hd, he⟩ := hl
      subst hd he
      simpa [processLines] using ih (acc ++ fr) hrest

theorem C5_error_before_done_aborts_witness :
    processLines
        [StreamLine.frag "A" false "", StreamLine.frag "" false "boom"] "" =
      Except.error ("ollama処理エラー: " ++ "boom") :=
  C5_error_before_done_aborts "" false "boom" [] (by decide)
    [StreamLine.frag "A" false ""] "" (by decide)

/-- Claim C6 counterexample: the loop returns the `TrimSpace`d
accumulation, not the plain concatenation of the response fields — a
single fragment whose response starts with a space already separates the
two. -/
theorem C6_result_is_trimmed :
    generateFromBody [StreamLine.frag " A" true ""] = Except.ok "A" ∧
    specConcatUpToDone [StreamLine.frag " A" true ""] = " A" ∧
    ("A" : String) ≠ " A" := by
  decide

theorem processLines_concat (lines : List StreamLine) :
    (∀ l ∈ lines, errFree l = true) →
    ∀ acc, processLines lines acc =
      Except.ok (trimString (acc ++ specConcatUpToDone lines)) := by
  induction lines with
  | nil => intro _ acc; simp [processLines, specConcatUpToDone]
  | cons l rest ih =>
    intro herr acc
    have hrest := fun x hx => herr x (List.mem_cons_of_mem _ hx)
    cases l with
    | malformed =>
      simpa [processLines, specConcatUpToDone] using ih hrest acc
    | frag r d e =>
      have he : e = "" := by
        have := herr _ (List.mem_cons_self _ _)
        simpa [errFree] using this
      subst he
      cases d with
      | true => simp [processLines, specConcatUpToDone]
      | false =>
        simp only [processLines, specConcatUpToDone, if_false,
          Bool.false_eq_true, ne_eq, not_true_eq_false, ite_false]
        rw [ih hrest (acc ++ r), String.append_assoc]

/-- Claim C6 (amended): for an error-free stream the call returns the
whitespace-trimmed concatenation of the response fields in arrival order
up to and including the first completion-flagged fragment; in particular
the A/B/C stream yields exactly `ABC`, and a malformed line between valid
fragments is skipped without aborting. -/
theorem C6_concat_trimmed :
    (∀ lines : List StreamLine, (∀ l ∈ lines, errFree l = true) →
        generateFromBody lines =
          Except.ok (trimString (specConcatUpToDone lines))) ∧
    generateFromBody
        [StreamLine.frag "A" false "", StreamLine.frag "B" false "",
         StreamLine.frag "C" true ""] = Except.ok "ABC" ∧
    generateFromBody
        [StreamLine.frag "A" false "", StreamLine.malformed,
         StreamLine.frag "B" true ""] = Except.ok "AB" := by
  refine ⟨?_, by decide, by decide⟩
  intro lines herr
  have h := processLines_concat lines herr ""
  simpa [generateFromBody] using h

theorem C6_concat_trimmed_witness :
    generateFromBody
        [StreamLine.frag "A" false "", StreamLine.frag "B" false "",
         StreamLine.frag "C" true ""] =
      Except.ok (trimString (specConcatUpToDone
        [StreamLine.frag "A" false "", StreamLine.frag "B" false "",
         StreamLine.frag "C" true ""])) :=
  C6_concat_trimmed.1 _ (by decide)

/-! ### Claim C4: offline-bank round-robin rotation -/

theorem rotationRun_mod (problems : List Problem) (k : Nat) :
    rotationRun problems k % problems.length = k % problems.length := by
  induction k with
  | zero => rfl
  | succ k ih =>
    show (rotationRun problems k % problems.length + 1) % problems.length =
      (k + 1) % problems.length
    rw [ih, Nat.mod_add_mod]

/-- Claim C4: the rotation mechanism is round-robin — starting from the
zero counter, the `k`-th lookup of a key whose list has more than one
entry returns the `k`-th entry for every `k` below the length, and the
lookup after a full cycle repeats the first entry; the grade-3 mathematics
entries are pairwise distinct, and with the backend unreachable two
consecutive `GeneratePersonalizedProblem` calls for mathematics grade 3
return the first and then the second entry of that key's list. -/
theorem C4_round_robin :
    (∀ problems : List Problem, 1 < problems.length →
        (∀ k, k < problems.length →
            rotationNth problems k = problems.getD k emptyProblem) ∧
        rotationNth problems problems.length = rotationNth problems 0) ∧
    mathProblemsG3.Nodup ∧
    (∀ msg1 msg2 : String, ∃ e1 e2,
        GeneratePersonalizedProblem newEngine mathCtx3 (Except.error msg1) =
          (Except.ok (mathProblemsG3.getD 0 emptyProblem), e1) ∧
        GeneratePersonalizedProblem e1 mathCtx3 (Except.error msg2) =
          (Except.ok (mathProblemsG3.getD 1 emptyProblem), e2)) := by
  refine ⟨?_, ?_, ?_⟩
  · intro problems hlen
    constructor
    · intro k hk
      unfold rotationNth rotationSelect
      rw [rotationRun_mod, Nat.mod_eq_of_lt hk]
    · unfold rotationNth rotationSelect
      rw [rotationRun_mod, Nat.mod_self]
      rfl
  · exact List.Nodup.of_map Problem.Title (by decide)
  · intro msg1 msg2
    exact ⟨_, _, rfl, rfl⟩

theorem C4_round_robin_witness :
    rotationNth mathProblemsG3 1 = mathProblemsG3.getD 1 emptyProblem ∧
    rotationNth mathProblemsG3 3 = rotationNth mathProblemsG3 0 :=
  ⟨(C4_round_robin.1 mathProblemsG3 (by decide)).1 1 (by decide),
   (C4_round_robin.1 mathProblemsG3 (by decide)).2⟩

/-! ### Claim C2: invariants of every returned problem -/

theorem validateProblem_ok_shape {p q : Problem}
    (h : validateProblem p = Except.ok q) :
    p.Title ≠ "" ∧ p.Description ≠ "" ∧ 2 ≤ p.Options.length ∧
    0 ≤ p.CorrectAnswer ∧ p.CorrectAnswer < (p.Options.length : Int) ∧
    1 ≤ p.Difficulty ∧ p.Difficulty ≤ 5 ∧
    q = if p.EstimatedTime ≤ 0 then { p with EstimatedTime := 300 } else p := by
  unfold validateProblem at h
  split_ifs at h with h1 h2 h3 h4 h5 h6
  all_goals refine ⟨h1, h2, by omega, by omega, by omega, by omega, by omega, ?_⟩
  · rw [if_pos h6]
    dsimp only at h
    repeat' split at h
    all_goals first
      | exact Except.noConfusion h
      | (injection h with h; exact h.symm)
  · rw [if_neg h6]
    dsimp only at h
    repeat' split at h
    all_goals first
      | exact Except.noConfusion h
      | (injection h with h; exact h.symm)

theorem validateProblem_ok_inv {p q : Problem}
    (h : validateProblem p = Except.ok q) : ProblemInvariant q := by
  obtain ⟨-, -, h3, h4, h5, h6, h7, hq⟩ := validateProblem_ok_shape h
  unfold ProblemInvariant
  by_cases ht : p.EstimatedTime ≤ 0
  · rw [if_pos ht] at hq
    subst hq
    exact ⟨h4, h5, h3, h6, h7, (by decide : (0 : Int) < 300)⟩
  · rw [if_neg ht] at hq
    subst hq
    exact ⟨h4, h5, h3, h6, h7, by omega⟩

theorem parseProblemResponse_ok_inv {resp : String} {p : Problem}
    (h : parseProblemResponse resp = Except.ok p) : ProblemInvariant p := by
  simp only [parseProblemResponse] at h
  split at h
  · exact Except.noConfusion h
  · split at h
    · exact Except.noConfusion h
    · rename_i q hq
      injection h with h
      subst h
      exact validateProblem_ok_inv hq

theorem invariant_getD {l : List Problem} (hl : ∀ p ∈ l, ProblemInvariant p)
    (hne : 0 < l.length) (i : Nat) :
    ProblemInvariant (l.getD (i % l.length) emptyProblem) := by
  have hlt : i % l.length < l.length := Nat.mod_lt _ hne
  rw [List.getD_eq_getElem?_getD, List.getElem?_eq_getElem hlt,
    Option.getD_some]
  exact hl _ (List.getElem_mem hlt)

theorem getMathProblem_invariant (e : EngineState) (g : Int) :
    ProblemInvariant (getMathProblem e g).1 := by
  unfold getMathProblem mathProblemsFor
  split_ifs <;> dsimp only [rotationSelect] <;>
    first
      | exact invariant_getD (by decide) (by decide) _
      | decide

theorem getEnglishProblem_invariant (e : EngineState) (g : Int) :
    ProblemInvariant (getEnglishProblem e g).1 := by
  dsimp only [getEnglishProblem, rotationSelect]
  exact invariant_getD (by decide) (by decide) _

theorem generateOfflineProblem_invariant (e : EngineState)
    (ctx : StudyContext) :
    ProblemInvariant (generateOfflineProblem e ctx).1 := by
  unfold generateOfflineProblem
  split_ifs
  · exact getMathProblem_invariant e ctx.Grade
  · exact getEnglishProblem_invariant e ctx.Grade
  · exact (by decide : ProblemInvariant japaneseProblem)
  · exact (by decide : ProblemInvariant scienceProblem)
  · exact (by decide : ProblemInvariant socialStudiesProblem)
  · exact (by decide : ProblemInvariant generalProblem)

/-- Claim C2: every problem returned without error by
`GeneratePersonalizedProblem` — parsed from a backend response or drawn
from the offline content bank — has its correct-answer index within the
option bounds, at least two options, difficulty between 1 and 5, and a
positive estimated time; a non-positive parsed time is silently replaced
by the default 300 rather than rejected. -/
theorem C2_returned_problem_invariant :
    (∀ e ctx backend p e2,
        GeneratePersonalizedProblem e ctx backend = (Except.ok p, e2) →
        ProblemInvariant p) ∧
    (∀ p q, p.EstimatedTime ≤ 0 → validateProblem p = Except.ok q →
        q.EstimatedTime = 300) := by
  constructor
  · intro e ctx backend p e2 h
    unfold GeneratePersonalizedProblem shouldTryAI at h
    rw [if_pos rfl] at h
    cases backend with
    | error msg =>
      simp only [Prod.mk.injEq, Except.ok.injEq] at h
      obtain ⟨hp, -⟩ := h
      subst hp
      exact generateOfflineProblem_invariant _ _
    | ok resp =>
      simp only [Prod.mk.injEq] at h
      obtain ⟨hp, -⟩ := h
      exact parseProblemResponse_ok_inv hp
  · intro p q ht h
    obtain ⟨-, -, -, -, -, -, -, hq⟩ := validateProblem_ok_shape h
    rw [if_pos ht] at hq
    subst hq
    rfl

theorem C2_returned_problem_invariant_witness :
    ProblemInvariant (mathProblemsG3.getD 0 emptyProblem) ∧
    ({ generalProblem with EstimatedTime := 300 } : Problem).EstimatedTime =
      300 :=
  ⟨C2_returned_problem_invariant.1 newEngine mathCtx3 (Except.error "x")
     (mathProblemsG3.getD 0 emptyProblem)
     { isOnline := false, failureCount := 1, problemIndex := [("数学_G3", 1)] }
     (by decide),
   C2_returned_problem_invariant.2 { generalProblem with EstimatedTime := 0 }
     { generalProblem with EstimatedTime := 300 } (by decide) (by decide)⟩

/-! ### Claims C8 and C9: the validator's quantitative branch -/

theorem hasSub_infix_iff (pat l : List Char) :
    hasSub pat l = true ↔ pat <:+: l := by
  induction l with
  | nil =>
    simp [hasSub, List.isEmpty_iff]
  | cons c t ih =>
    simp only [hasSub, Bool.or_eq_true, List.isPrefixOf_iff_prefix, ih]
    exact (List.infix_cons_iff (a := c)).symm

theorem strContains_of_infix {s pat1 pat2 : String}
    (hsub : pat1.data <:+: pat2.data) (h : strContains s pat2 = true) :
    strContains s pat1 = true := by
  unfold strContains at h ⊢
  exact (hasSub_infix_iff _ _).2 (hsub.trans ((hasSub_infix_iff _ _).1 h))

theorem validateProblem_math_eq {p : Problem}
    (hT : ¬ p.Title = "") (hD : ¬ p.Description = "")
    (hO : ¬ p.Options.length < 2)
    (hC : ¬ (p.CorrectAnswer < 0 ∨ (p.Options.length : Int) ≤ p.CorrectAnswer))
    (hDif : ¬ (p.Difficulty < 1 ∨ 5 < p.Difficulty))
    (hTime : ¬ p.EstimatedTime ≤ 0)
    (hmath : validatorIsMathProblem p.Description = true) :
    validateProblem p =
      match forbiddenPhrases.find? (fun ph => strContains p.Description ph) with
      | some ph => Except.error (ValidationError.forbiddenReference ph)
      | none =>
        if strContains p.Description "二等辺三角形" &&
            strContains p.Description "角" then
          match validateIsoscelesTriangleProblem p with
          | some stated =>
            Except.error (ValidationError.geometricInconsistency stated)
          | none => Except.ok p
        else Except.ok p := by
  simp only [validateProblem, if_neg hT, if_neg hD, if_neg hO, if_neg hC,
    if_neg hDif, if_neg hTime, hmath, if_true]

theorem validateProblem_nonmath_eq {p : Problem}
    (hT : ¬ p.Title = "") (hD : ¬ p.Description = "")
    (hO : ¬ p.Options.length < 2)
    (hC : ¬ (p.CorrectAnswer < 0 ∨ (p.Options.length : Int) ≤ p.CorrectAnswer))
    (hDif : ¬ (p.Difficulty < 1 ∨ 5 < p.Difficulty))
    (hTime : ¬ p.EstimatedTime ≤ 0)
    (hmath : validatorIsMathProblem p.Description = false) :
    validateProblem p = Except.ok p := by
  simp only [validateProblem, if_neg hT, if_neg hD, if_neg hO, if_neg hC,
    if_neg hDif, if_neg hTime, hmath, Bool.false_eq_true, if_false]

/-- Claim C8: for a structurally valid problem whose description mentions
the isosceles-triangle archetype with both base angles 45 degrees and a
reference to angle B (and which carries no blocklisted phrase),
`validateProblem` rejects a stated correct option of 60度 with a
GeometricInconsistency error and accepts the same problem when the stated
correct option is 90度, matching the 180-degree angle-sum identity. -/
theorem C8_isosceles_oracle (p : Problem)
    (hT : p.Title ≠ "") (hD : p.Description ≠ "")
    (hO : 2 ≤ p.Options.length) (hC0 : 0 ≤ p.CorrectAnswer)
    (hC1 : p.CorrectAnswer < (p.Options.length : Int))
    (hDif1 : 1 ≤ p.Difficulty) (hDif5 : p.Difficulty ≤ 5)
    (hTime : 0 < p.EstimatedTime)
    (hiso : strContains p.Description "二等辺三角形" = true)
    (h45 : strContains p.Description "45度" = true)
    (hB : strContains p.Description "角B" = true)
    (hforb : ∀ ph ∈ forbiddenPhrases, strContains p.Description ph = false) :
    (p.Options.getD p.CorrectAnswer.toNat "" = "60度" →
        validateProblem p =
          Except.error (ValidationError.geometricInconsistency "60度")) ∧
    (p.Options.getD p.CorrectAnswer.toNat "" = "90度" →
        validateProblem p = Except.ok p) := by
  have hO' : ¬ p.Options.length < 2 := by omega
  have hC' : ¬ (p.CorrectAnswer < 0 ∨ (p.Options.length : Int) ≤ p.CorrectAnswer) := by
    omega
  have hDif' : ¬ (p.Difficulty < 1 ∨ 5 < p.Difficulty) := by omega
  have hTime' : ¬ p.EstimatedTime ≤ 0 := by omega
  have hAngle : strContains p.Description "角" = true :=
    strContains_of_infix ((hasSub_infix_iff _ _).1 (by decide)) hB
  have hDeg : strContains p.Description "度" = true :=
    strContains_of_infix ((hasSub_infix_iff _ _).1 (by decide)) h45
  have hmath : validatorIsMathProblem p.Description = true := by
    unfold validatorIsMathProblem
    simp [hDeg]
  have hfind :
      forbiddenPhrases.find? (fun ph => strContains p.Description ph) = none :=
    List.find?_eq_none.mpr (fun x hx => by simp [hforb x hx])
  have heq := validateProblem_math_eq hT hD hO' hC' hDif' hTime' hmath
  rw [hfind] at heq
  rw [if_pos (by simp [hiso, hAngle])] at heq
  constructor
  · intro h60
    rw [heq]
    unfold validateIsoscelesTriangleProblem
    rw [if_pos (by simp [h45, hB]), h60]
    have : strContains "60度" "90" = false := by decide
    simp [this]
  · intro h90
    rw [heq]
    unfold validateIsoscelesTriangleProblem
    rw [if_pos (by simp [h45, hB]), h90]
    have : strContains "90度" "90" = true := by decide
    simp [this]

theorem C8_isosceles_oracle_witness :
    validateProblem isoProblem60 =
      Except.error (ValidationError.geometricInconsistency "60度") ∧
    validateProblem isoProblem90 = Except.ok isoProblem90 :=
  ⟨(C8_isosceles_oracle isoProblem60 (by decide) (by decide) (by decide)
      (by decide) (by decide) (by decide) (by decide) (by decide) (by decide)
      (by decide) (by decide) (by decide)).1 (by decide),
   (C8_isosceles_oracle isoProblem90 (by decide) (by decide) (by decide)
      (by decide) (by decide) (by decide) (by decide) (by decide) (by decide)
      (by decide) (by decide) (by decide)).2 (by decide)⟩

/-- Claim C9: the forbidden-external-reference blocklist applies only to
descriptions the validator judges quantitative — a quantitative
description containing 下の図 is rejected with a ForbiddenReference error,
while a non-quantitative description passes validation even when it
contains the same blocklisted phrase. -/
theorem C9_blocklist_only_quantitative (p : Problem)
    (hT : p.Title ≠ "") (hD : p.Description ≠ "")
    (hO : 2 ≤ p.Options.length) (hC0 : 0 ≤ p.CorrectAnswer)
    (hC1 : p.CorrectAnswer < (p.Options.length : Int))
    (hDif1 : 1 ≤ p.Difficulty) (hDif5 : p.Difficulty ≤ 5)
    (hTime : 0 < p.EstimatedTime) :
    (validatorIsMathProblem p.Description = true →
        strContains p.Description "下の図" = true →
        ∃ ph, validateProblem p =
          Except.error (ValidationError.forbiddenReference ph)) ∧
    (validatorIsMathProblem p.Description = false →
        validateProblem p = Except.ok p) := by
  have hO' : ¬ p.Options.length < 2 := by omega
  have hC' : ¬ (p.CorrectAnswer < 0 ∨ (p.Options.length : Int) ≤ p.CorrectAnswer) := by
    omega
  have hDif' : ¬ (p.Difficulty < 1 ∨ 5 < p.Difficulty) := by omega
  have hTime' : ¬ p.EstimatedTime ≤ 0 := by omega
  constructor
  · intro hmath hphrase
    have hsome :
        (forbiddenPhrases.find? (fun ph => strContains p.Description ph)).isSome :=
      List.find?_isSome.mpr ⟨"下の図", by decide, hphrase⟩
    obtain ⟨ph, hph⟩ := Option.isSome_iff_exists.mp hsome
    refine ⟨ph, ?_⟩
    rw [validateProblem_math_eq hT hD hO' hC' hDif' hTime' hmath, hph]
  · intro hmath
    exact validateProblem_nonmath_eq hT hD hO' hC' hDif' hTime' hmath

theorem C9_blocklist_only_quantitative_witness :
    (∃ ph, validateProblem forbiddenMathProblem =
        Except.error (ValidationError.forbiddenReference ph)) ∧
    validateProblem forbiddenPlainProblem = Except.ok forbiddenPlainProblem :=
  ⟨(C9_blocklist_only_quantitative forbiddenMathProblem (by decide) (by decide)
      (by decide) (by decide) (by decide) (by decide) (by decide)
      (by decide)).1 (by decide) (by decide),
   (C9_blocklist_only_quantitative forbiddenPlainProblem (by decide)
      (by decide) (by decide) (by decide) (by decide) (by decide) (by decide)
      (by decide)).2 (by decide)⟩

/-! ### Claim C7: round-trip of the `KEY: value` layout -/

theorem dropWhile_eq_self_of_headNotSpace {l : List Char}
    (h : headNotSpace l = true) : l.dropWhile isSpaceGo = l := by
  cases l with
  | nil => rfl
  | cons c t =>
    simp only [headNotSpace, Bool.not_eq_true'] at h
    simp [List.dropWhile_cons, h]

theorem trimL_eq_self {l : List Char} (h1 : headNotSpace l = true)
    (h2 : headNotSpace l.reverse = true) : trimL l = l := by
  unfold trimL
  rw [dropWhile_eq_self_of_headNotSpace h1,
    dropWhile_eq_self_of_headNotSpace h2, List.reverse_reverse]

theorem trimL_cons_space {c : Char} {l : List Char} (h : isSpaceGo c = true) :
    trimL (c :: l) = trimL l := by
  unfold trimL
  rw [List.dropWhile_cons, if_pos h]

theorem headNotSpace_append {l r : List Char} (hl : l ≠ [])
    (h : headNotSpace l = true) : headNotSpace (l ++ r) = true := by
  cases l with
  | nil => exact absurd rfl hl
  | cons c t => simpa [headNotSpace] using h

theorem reverse_headNotSpace_append {l r : List Char} (hr : r ≠ [])
    (h : headNotSpace r.reverse = true) :
    headNotSpace (l ++ r).reverse = true := by
  rw [List.reverse_append]
  have hrne : r.reverse ≠ [] := fun hh => hr (by simpa using hh)
  exact headNotSpace_append hrne h

theorem intercalate_single (c : Char) (l : List Char) :
    [c].intercalate [l] = l := by
  simp [List.intercalate]

theorem intercalate_cons (c : Char) (l : List Char) {ls : List (List Char)}
    (h : ls ≠ []) :
    [c].intercalate (l :: ls) = l ++ c :: [c].intercalate ls := by
  cases ls with
  | nil => exact absurd rfl h
  | cons m ms =>
    simp [List.intercalate, List.intersperse_cons_cons]

theorem intercalate_ne_nil {c : Char} {ls : List (List Char)} (hne : ls ≠ [])
    (hl : ∀ l ∈ ls, l ≠ []) : [c].intercalate ls ≠ [] := by
  cases ls with
  | nil => exact absurd rfl hne
  | cons l ms =>
    cases ms with
    | nil =>
      rw [intercalate_single]
      exact hl l (by simp)
    | cons m ms2 =>
      rw [intercalate_cons c l (by simp)]
      exact List.append_ne_nil_of_right_ne_nil _ (by simp)

theorem headNotSpace_intercalate {c : Char} {ls : List (List Char)}
    (hne : ls ≠ []) (hl : ∀ l ∈ ls, l ≠ [] ∧ headNotSpace l = true) :
    headNotSpace ([c].intercalate ls) = true := by
  cases ls with
  | nil => exact absurd rfl hne
  | cons l ms =>
    obtain ⟨hl1, hl2⟩ := hl l (by simp)
    cases ms with
    | nil =>
      rw [intercalate_single]
      exact hl2
    | cons m ms2 =>
      rw [intercalate_cons c l (by simp)]
      exact headNotSpace_append hl1 hl2

theorem rev_headNotSpace_intercalate {c : Char} {ls : List (List Char)}
    (hne : ls ≠ [])
    (hl : ∀ l ∈ ls, l ≠ [] ∧ headNotSpace l.reverse = true) :
    headNotSpace ([c].intercalate ls).reverse = true := by
  induction ls with
  | nil => exact absurd rfl hne
  | cons l ms ih =>
    cases ms with
    | nil =>
      rw [intercalate_single]
      exact (hl l (by simp)).2
    | cons m ms2 =>
      rw [intercalate_cons c l (by simp)]
      have hrec := ih (by simp) (fun x hx => hl x (by simp [hx]))
      refine reverse_headNotSpace_append (by simp) ?_
      rw [List.reverse_cons]
      have hint : [c].intercalate (m :: ms2) ≠ [] :=
        intercalate_ne_nil (by simp) (fun x hx => (hl x (by simp [hx])).1)
      have hintrev : ([c].intercalate (m :: ms2)).reverse ≠ [] :=
        fun hh => hint (by simpa using hh)
      exact headNotSpace_append hintrev hrec

theorem mem_intercalate {c x : Char} {ls : List (List Char)}
    (h : x ∈ [c].intercalate ls) : x = c ∨ ∃ l ∈ ls, x ∈ l := by
  induction ls with
  | nil => simp [List.intercalate] at h
  | cons l ms ih =>
    cases ms with
    | nil =>
      rw [intercalate_single] at h
      exact Or.inr ⟨l, by simp, h⟩
    | cons m ms2 =>
      rw [intercalate_cons c l (by simp)] at h
      rcases List.mem_append.mp h with h | h
      · exact Or.inr ⟨l, by simp, h⟩
      · rcases List.mem_cons.mp h with h | h
        · exact Or.inl h
        · rcases ih h with h | ⟨l2, hl2, hx⟩
          · exact Or.inl h
          · exact Or.inr ⟨l2, by simp [List.mem_cons.mp hl2], hx⟩

theorem splitOnP_sat {α : Type} {p : α → Bool} :
    ∀ (v l : List α), l ∈ v.splitOnP p → ∀ x ∈ l, ¬ p x := by
  intro v
  induction v with
  | nil =>
    intro l hl
    rw [List.splitOnP_nil] at hl
    simp only [List.mem_singleton] at hl
    subst hl
    simp
  | cons a t ih =>
    intro l hl
    rw [List.splitOnP_cons] at hl
    by_cases hpa : p a
    · rw [if_pos hpa] at hl
      rcases List.mem_cons.mp hl with rfl | hl
      · simp
      · exact ih l hl
    · rw [if_neg hpa] at hl
      obtain ⟨h0, hs, hsplit⟩ : ∃ h0 hs, t.splitOnP p = h0 :: hs := by
        cases hh : t.splitOnP p with
        | nil => exact absurd hh (List.splitOnP_ne_nil _ _)
        | cons h0 hs => exact ⟨h0, hs, rfl⟩
      rw [hsplit] at hl
      simp only [List.modifyHead] at hl
      rcases List.mem_cons.mp hl with rfl | hl
      · intro x hx
        rcases List.mem_cons.mp hx with rfl | hx
        · exact hpa
        · exact ih h0 (by rw [hsplit]; simp) x hx
      · exact ih l (by rw [hsplit]; simp [hl])

theorem splitOn_ne_nil' (c : Char) (l : List Char) : l.splitOn c ≠ [] := by
  simp only [List.splitOn]
  exact List.splitOnP_ne_nil _ l

theorem not_mem_splitOn {c : Char} {v l : List Char}
    (h : l ∈ v.splitOn c) : c ∉ l := by
  intro hc
  have := splitOnP_sat v l (by simpa [List.splitOn] using h) c hc
  simp at this

theorem dropWhile_colon_append {k rest : List Char} (h : colonChar ∉ k) :
    (k ++ colonChar :: rest).dropWhile (fun c => c != colonChar) =
      colonChar :: rest := by
  induction k with
  | nil => simp [List.dropWhile_cons]
  | cons c k' ih =>
    have hc : c ≠ colonChar := fun hh => h (by simp [hh])
    rw [List.cons_append, List.dropWhile_cons, if_pos (by simpa using hc)]
    exact ih (fun hh => h (by simp [hh]))

theorem takeWhile_colon_append {k rest : List Char} (h : colonChar ∉ k) :
    (k ++ colonChar :: rest).takeWhile (fun c => c != colonChar) = k := by
  induction k with
  | nil => simp [List.takeWhile_cons]
  | cons c k' ih =>
    have hc : c ≠ colonChar := fun hh => h (by simp [hh])
    rw [List.cons_append, List.takeWhile_cons, if_pos (by simpa using hc)]
    rw [ih (fun hh => h (by simp [hh]))]

theorem splitFirstColon_append {k rest : List Char} (h : colonChar ∉ k) :
    splitFirstColon (k ++ colonChar :: rest) = some (k, rest) := by
  unfold splitFirstColon
  rw [dropWhile_colon_append h, takeWhile_colon_append h]

theorem splitFirstColon_none {l : List Char} (h : colonChar ∉ l) :
    splitFirstColon l = none := by
  unfold splitFirstColon
  have : l.dropWhile (fun c => c != colonChar) = [] := by
    rw [List.dropWhile_eq_nil_iff]
    intro x hx
    exact bne_iff_ne.mpr (fun hh => h (hh ▸ hx))
  rw [this]

theorem stripTicks_id : ∀ {l : List Char}, backquote ∉ l → stripTicks l = l := by
  intro l
  induction l using stripTicks.induct with
  | case1 c d e rest hcond ih =>
    intro h
    exact absurd (by simp [hcond.1]) (fun hh : backquote ∈ c :: d :: e :: rest => h hh)
  | case2 c d e rest hcond ih =>
    intro h
    rw [stripTicks, if_neg hcond, ih (fun hh => h (by simp [hh]))]
  | case3 c rest hshape ih =>
    intro h
    cases rest with
    | nil => rfl
    | cons d rest2 =>
      cases rest2 with
      | nil => rfl
      | cons e rest3 => exact absurd rfl (hshape d e rest3)
  | case4 =>
    intro _
    rfl

theorem insertKV_append : ∀ {m : List (String × String)} {k v : String},
    k ∉ m.map Prod.fst → insertKV m k v = m ++ [(k, v)] := by
  intro m
  induction m with
  | nil => intro k v _; rfl
  | cons kv rest ih =>
    intro k v h
    obtain ⟨k0, v0⟩ := kv
    simp only [List.map_cons, List.mem_cons, not_or] at h
    unfold insertKV
    rw [if_neg (fun hh => h.1 hh.symm), ih h.2]
    rfl

theorem parseLoop_nil (ck cv : List Char) (fields : List (String × String)) :
    parseLoop [] ck cv fields =
      if ck ≠ [] then insertKV fields ⟨ck⟩ ⟨trimL cv⟩ else fields := rfl

theorem parseLoop_keyline {line : List Char} {k after : List Char}
    (rest : List (List Char)) (ck cv : List Char)
    (fields : List (String × String))
    (hline : trimL line = line) (hne : line ≠ [])
    (hsplit : splitFirstColon line = some (k, after)) :
    parseLoop (line :: rest) ck cv fields =
      parseLoop rest (trimL k) (trimL after)
        (if ck ≠ [] then insertKV fields ⟨ck⟩ ⟨trimL cv⟩ else fields) := by
  conv_lhs => rw [parseLoop]
  simp [hline, hne, hsplit]

theorem parseLoop_contline {line : List Char} (rest : List (List Char))
    {ck : List Char} (cv : List Char) (fields : List (String × String))
    (hline : trimL line = line) (hne : line ≠ [])
    (hnone : splitFirstColon line = none) (hck : ck ≠ []) :
    parseLoop (line :: rest) ck cv fields =
      parseLoop rest ck (if cv.isEmpty then line else cv ++ lineFeed :: line)
        fields := by
  conv_lhs => rw [parseLoop]
  simp [hline, hne, hnone, hck]

theorem intercalate_glue (c : Char) (a b : List Char) (ls : List (List Char)) :
    [c].intercalate ((a ++ c :: b) :: ls) = a ++ c :: [c].intercalate (b :: ls) := by
  cases ls with
  | nil => rw [intercalate_single, intercalate_single]
  | cons m ms =>
    rw [intercalate_cons c _ (by simp), intercalate_cons c b (by simp)]
    simp [List.append_assoc]

theorem parseLoop_cont {ck : List Char} (hck : ck ≠ []) :
    ∀ (ls : List (List Char)) (rest : List (List Char)) (cv : List Char)
      (fields : List (String × String)), cv ≠ [] →
      (∀ l ∈ ls, l ≠ [] ∧ headNotSpace l = true ∧
        headNotSpace l.reverse = true ∧ colonChar ∉ l) →
      parseLoop (ls ++ rest) ck cv fields =
        parseLoop rest ck ([lineFeed].intercalate (cv :: ls)) fields := by
  intro ls
  induction ls with
  | nil =>
    intro rest cv fields hcv _
    rw [intercalate_single]
    rfl
  | cons l ls' ih =>
    intro rest cv fields hcv hgood
    obtain ⟨hl1, hl2, hl3, hl4⟩ := hgood l (by simp)
    rw [List.cons_append,
      parseLoop_contline (ls' ++ rest) cv fields (trimL_eq_self hl2 hl3) hl1
        (splitFirstColon_none hl4) hck]
    have hcv2 : (if cv.isEmpty then l else cv ++ lineFeed :: l) =
        cv ++ lineFeed :: l := by
      rw [if_neg]
      simpa [List.isEmpty_iff] using hcv
    rw [hcv2,
      ih rest (cv ++ lineFeed :: l) fields (by simp)
        (fun x hx => hgood x (by simp [hx])),
      intercalate_glue, intercalate_cons lineFeed cv (by simp)]

theorem nodup_head_notmem {a : String} {l1 : List String}
    (l2 : List String) (h : (l1 ++ [a] ++ l2).Nodup) : a ∉ l1 := by
  intro hmem
  rw [List.append_assoc, List.nodup_append] at h
  exact h.2.2 hmem (by simp)

theorem goodValue_trim {v : List Char} (hv : goodValue v) : trimL v = v := by
  obtain ⟨hlines, -⟩ := hv
  obtain ⟨v1, vt, hsp⟩ : ∃ v1 vt, v.splitOn lineFeed = v1 :: vt := by
    cases hh : v.splitOn lineFeed with
    | nil => exact absurd hh (splitOn_ne_nil' _ _)
    | cons v1 vt => exact ⟨v1, vt, rfl⟩
  have hv_eq : [lineFeed].intercalate (v1 :: vt) = v := by
    rw [← hsp]
    exact List.intercalate_splitOn v lineFeed
  have h1 : headNotSpace v = true := by
    rw [← hv_eq]
    refine headNotSpace_intercalate (by simp) (fun l hl => ?_)
    have := hlines l (by rw [hsp]; exact hl)
    exact ⟨this.1, this.2.1⟩
  have h2 : headNotSpace v.reverse = true := by
    rw [← hv_eq]
    refine rev_headNotSpace_intercalate (by simp) (fun l hl => ?_)
    have := hlines l (by rw [hsp]; exact hl)
    exact ⟨this.1, this.2.2.1⟩
  exact trimL_eq_self h1 h2

theorem renderLines_good {fs : List (String × String)}
    (hwf : ∀ kv ∈ fs, goodKey kv.1.data ∧ goodValue kv.2.data) :
    ∀ l ∈ renderLines fs, l ≠ [] ∧ headNotSpace l = true ∧
      headNotSpace l.reverse = true ∧ lineFeed ∉ l ∧ backquote ∉ l := by
  intro l hl
  unfold renderLines at hl
  rw [List.mem_flatMap] at hl
  obtain ⟨kv, hkv, hmem⟩ := hl
  obtain ⟨hk, hv⟩ := hwf kv hkv
  obtain ⟨hlines, -⟩ := hv
  cases hh : kv.2.data.splitOn lineFeed with
  | nil => exact absurd hh (splitOn_ne_nil' _ _)
  | cons v1 vt =>
    rw [hh] at hmem
    obtain ⟨hv1a, hv1b, hv1c, hv1d⟩ := hlines v1 (by rw [hh]; simp)
    rcases List.mem_cons.mp hmem with rfl | hmem2
    · obtain ⟨hk1, hk2, hk3, hk4, hk5, hk6⟩ := hk
      refine ⟨by simp [hk1], headNotSpace_append hk1 hk2, ?_, ?_, ?_⟩
      · refine reverse_headNotSpace_append (by simp) ?_
        rw [List.reverse_cons]
        refine headNotSpace_append (by simp) ?_
        rw [List.reverse_cons]
        exact headNotSpace_append (fun hhh => hv1a (by simpa using hhh)) hv1c
      · intro hmem3
        rcases List.mem_append.mp hmem3 with h | h
        · exact hk5 h
        · rcases List.mem_cons.mp h with h | h
          · exact absurd h (by decide)
          · rcases List.mem_cons.mp h with h | h
            · exact absurd h (by decide)
            · exact not_mem_splitOn (v := kv.2.data) (by rw [hh]; simp) h
      · intro hmem3
        rcases List.mem_append.mp hmem3 with h | h
        · exact hk6 h
        · rcases List.mem_cons.mp h with h | h
          · exact absurd h (by decide)
          · rcases List.mem_cons.mp h with h | h
            · exact absurd h (by decide)
            · exact hv1d h
    · have hmem3 : l ∈ kv.2.data.splitOn lineFeed := by rw [hh]; simp [hmem2]
      have hg := hlines l hmem3
      exact ⟨hg.1, hg.2.1, hg.2.2.1, not_mem_splitOn hmem3, hg.2.2.2⟩

theorem parseLoop_renderLines :
    ∀ (fs : List (String × String)) (fields : List (String × String))
      (ck cv : List Char),
      (∀ kv ∈ fs, goodKey kv.1.data ∧ goodValue kv.2.data) →
      (ck ≠ [] → trimL cv = cv) →
      (((fields.map Prod.fst ++
          (if ck = [] then [] else [(⟨ck⟩ : String)])) ++
        fs.map Prod.fst).Nodup) →
      parseLoop (renderLines fs) ck cv fields =
        (if ck = [] then fields
         else fields ++ [((⟨ck⟩ : String), (⟨cv⟩ : String))]) ++ fs := by
  intro fs
  induction fs with
  | nil =>
    intro fields ck cv _ hcv hnodup
    show parseLoop [] ck cv fields = _
    rw [parseLoop_nil]
    by_cases hck : ck = []
    · simp [hck]
    · rw [if_pos hck, hcv hck, if_neg hck, List.append_nil]
      refine insertKV_append ?_
      refine nodup_head_notmem [] ?_
      simpa [hck] using hnodup
  | cons kv rest ih =>
    intro fields ck cv hwf hcv hnodup
    obtain ⟨k, v⟩ := kv
    obtain ⟨hk, hv⟩ := hwf (k, v) (by simp)
    obtain ⟨hk1, hk2, hk3, hk4, hk5, hk6⟩ := hk
    obtain ⟨hlines, htail⟩ := hv
    cases hh : v.data.splitOn lineFeed with
    | nil => exact absurd hh (splitOn_ne_nil' _ _)
    | cons v1 vt =>
      obtain ⟨hv1a, hv1b, hv1c, hv1d⟩ := hlines v1 (by rw [hh]; simp)
      have hrender : renderLines ((k, v) :: rest) =
          (k.data ++ colonChar :: spaceChar :: v1) ::
            (vt ++ renderLines rest) := by
        unfold renderLines
        rw [List.flatMap_cons, hh]
        rfl
      rw [hrender]
      have hfhead : headNotSpace (k.data ++ colonChar :: spaceChar :: v1) =
          true := headNotSpace_append hk1 hk2
      have hfrev :
          headNotSpace (k.data ++ colonChar :: spaceChar :: v1).reverse =
            true := by
        refine reverse_headNotSpace_append (by simp) ?_
        rw [List.reverse_cons]
        refine headNotSpace_append (by simp) ?_
        rw [List.reverse_cons]
        exact headNotSpace_append (fun hhh => hv1a (by simpa using hhh)) hv1c
      rw [parseLoop_keyline (vt ++ renderLines rest) ck cv fields
        (trimL_eq_self hfhead hfrev) (by simp [hk1])
        (splitFirstColon_append hk4)]
      rw [trimL_eq_self hk2 hk3]
      have htrimv1 : trimL (spaceChar :: v1) = v1 := by
        rw [trimL_cons_space (by decide)]
        exact trimL_eq_self hv1b hv1c
      rw [htrimv1]
      have hvt : ∀ l ∈ vt, l ≠ [] ∧ headNotSpace l = true ∧
          headNotSpace l.reverse = true ∧ colonChar ∉ l := by
        intro l hl
        have hg := hlines l (by rw [hh]; simp [hl])
        exact ⟨hg.1, hg.2.1, hg.2.2.1, htail l (by rw [hh]; exact hl)⟩
      rw [parseLoop_cont hk1 vt (renderLines rest) v1 _ hv1a hvt]
      have hjoin : [lineFeed].intercalate (v1 :: vt) = v.data := by
        rw [← hh]
        exact List.intercalate_splitOn v.data lineFeed
      rw [hjoin]
      have hwf' : ∀ kv2 ∈ rest, goodKey kv2.1.data ∧ goodValue kv2.2.data :=
        fun kv2 hkv2 => hwf kv2 (by simp [hkv2])
      have hcv' : k.data ≠ [] → trimL v.data = v.data :=
        fun _ => goodValue_trim ⟨hlines, htail⟩
      by_cases hck : ck = []
      · rw [if_neg (by simpa [hck] : ¬ ck ≠ [])]
        rw [ih fields k.data v.data hwf' hcv' ?nodup1]
        · rw [if_neg (by simpa using hk1), if_pos hck]
          simp [List.append_assoc]
        case nodup1 =>
          rw [if_neg (by simpa using hk1)]
          simpa [hck] using hnodup
      · have hFmem : (⟨ck⟩ : String) ∉ fields.map Prod.fst := by
          refine nodup_head_notmem (((k, v) :: rest).map Prod.fst) ?_
          simpa [hck, List.append_assoc] using hnodup
        rw [if_pos hck, hcv hck, insertKV_append hFmem]
        have hnodup2 : ((List.map Prod.fst
              (fields ++ [((⟨ck⟩ : String), (⟨cv⟩ : String))]) ++
            (if k.data = [] then [] else [(⟨k.data⟩ : String)])) ++
            List.map Prod.fst rest).Nodup := by
          rw [if_neg (by simpa using hk1)]
          simpa [hck, List.append_assoc] using hnodup
        rw [ih (fields ++ [((⟨ck⟩ : String), (⟨cv⟩ : String))]) k.data v.data
          hwf' hcv' hnodup2]
        rw [if_neg (by simpa using hk1), if_neg hck]
        simp only [List.append_assoc, List.singleton_append]
        rfl

theorem lookupKV_of_mem : ∀ {fs : List (String × String)} {k v : String},
    (fs.map Prod.fst).Nodup → (k, v) ∈ fs → lookupKV fs k = some v := by
  intro fs
  induction fs with
  | nil =>
    intro k v _ h
    simp at h
  | cons kv rest ih =>
    intro k v hnodup hmem
    obtain ⟨k0, v0⟩ := kv
    have hnodup' : (k0 :: rest.map Prod.fst).Nodup := by simpa using hnodup
    rcases List.mem_cons.mp hmem with heq | hmem2
    · rw [Prod.mk.injEq] at heq
      obtain ⟨rfl, rfl⟩ := heq
      simp [lookupKV]
    · have hk0 : k0 ≠ k := by
        rintro rfl
        have hmemk : k0 ∈ rest.map Prod.fst :=
          List.mem_map.mpr ⟨(k0, v), hmem2, rfl⟩
        exact (List.nodup_cons.mp hnodup').1 hmemk
      simp only [lookupKV, if_neg hk0]
      exact ih (List.nodup_cons.mp hnodup').2 hmem2

theorem parseKeyValueResponse_render {fs : List (String × String)}
    (hwf : recordWF fs) : parseKeyValueResponse (renderRecord fs) = fs := by
  obtain ⟨hnodup, hgood⟩ := hwf
  by_cases hfs : fs = []
  · subst hfs
    rfl
  · have hlines := renderLines_good hgood
    have hne : renderLines fs ≠ [] := by
      cases fs with
      | nil => exact absurd rfl hfs
      | cons kv rest =>
        obtain ⟨k, v⟩ := kv
        cases hh : v.data.splitOn lineFeed with
        | nil => exact absurd hh (splitOn_ne_nil' _ _)
        | cons v1 vt => simp [renderLines, hh]
    have hticks : stripTicks ([lineFeed].intercalate (renderLines fs)) =
        [lineFeed].intercalate (renderLines fs) := by
      apply stripTicks_id
      intro hmem
      rcases mem_intercalate hmem with h | ⟨l, hl, hx⟩
      · exact absurd h (by decide)
      · exact (hlines l hl).2.2.2.2 hx
    have htrim : trimL ([lineFeed].intercalate (renderLines fs)) =
        [lineFeed].intercalate (renderLines fs) := by
      apply trimL_eq_self
      · exact headNotSpace_intercalate hne
          (fun l hl => ⟨(hlines l hl).1, (hlines l hl).2.1⟩)
      · exact rev_headNotSpace_intercalate hne
          (fun l hl => ⟨(hlines l hl).1, (hlines l hl).2.2.1⟩)
    have hsplit : ([lineFeed].intercalate (renderLines fs)).splitOn lineFeed =
        renderLines fs :=
      List.splitOn_intercalate (renderLines fs) lineFeed
        (fun l hl => (hlines l hl).2.2.2.1) hne
    show parseLoop
      ((trimL (stripTicks ([lineFeed].intercalate (renderLines fs)))).splitOn
        lineFeed) [] [] [] = fs
    rw [hticks, htrim, hsplit]
    have hrun := parseLoop_renderLines fs [] [] [] hgood
      (fun h => absurd rfl h) (by simpa using hnodup)
    rw [hrun]
    simp

/-- Claim C7 counterexample: rendering a record whose multi-line value has
a continuation line of the shape `KEY: value` and parsing it back does not
reproduce the original field value — the parser opens a new key at the
colon, so the unrestricted round-trip claim is false. -/
theorem C7_roundtrip_fails_on_colon_value :
    renderRecord collidingRecord = "A: x\nB: y" ∧
    parseKeyValueResponse (renderRecord collidingRecord) =
      [("A", "x"), ("B", "y")] ∧
    lookupKV (parseKeyValueResponse (renderRecord collidingRecord)) "A" =
      some "x" ∧
    some ("x" : String) ≠ some ("x\nB: y" : String) := by
  decide

/-- Claim C7 (amended): the `KEY: value` round-trip holds for every
well-formed record — distinct keys that are non-empty, trimmed and free of
colons, newlines and code-fence backquotes, and values whose lines are
non-empty, trimmed and free of backquotes, with no colon in any
continuation line. Parsing the rendered text reproduces the record
exactly, including fields whose values span several lines. -/
theorem C7_roundtrip (fs : List (String × String)) (hwf : recordWF fs) :
    parseKeyValueResponse (renderRecord fs) = fs ∧
    ∀ k v, (k, v) ∈ fs →
      lookupKV (parseKeyValueResponse (renderRecord fs)) k = some v := by
  have hmain := parseKeyValueResponse_render hwf
  refine ⟨hmain, fun k v hmem => ?_⟩
  rw [hmain]
  exact lookupKV_of_mem hwf.1 hmem

theorem C7_roundtrip_witness :
    parseKeyValueResponse (renderRecord roundTripRecord) = roundTripRecord ∧
    lookupKV (parseKeyValueResponse (renderRecord roundTripRecord))
      "EXPLANATION" = some "一行目\n二行目\n三行目" :=
  ⟨(C7_roundtrip roundTripRecord (by decide)).1,
   (C7_roundtrip roundTripRecord (by decide)).2 "EXPLANATION"
     "一行目\n二行目\n三行目" (by decide)⟩
